import Mathlib

/-!
Verification of the citadel-tools low-level provisioning and RealmFS layer.

Each Rust function relevant to the checked properties is shallowly embedded as
an executable Lean definition.  File-system and subprocess effects are made
explicit: reads from disk become parameters, writes become explicit state
transitions, and fallible external commands become boolean outcome parameters.
-/

set_option autoImplicit false

namespace Citadel

/-! Character classification used by util::is_valid_name (libcitadel/src/util.rs).
Rust char::is_alphabetic and char::is_alphanumeric follow the Unicode tables,
but the source only consults them under an is_ascii guard, and on codepoints
up to 0x7F the Unicode Alphabetic property holds exactly for A-Z and a-z and
the alphanumeric property additionally for the digits 0-9.  We embed exactly
that observable slice of the tables. -/

/-- Rust util::is_ascii: the scalar value of the char is at most 0x7F. -/
def isAscii (c : Char) : Bool := c.toNat ≤ 0x7F

/-- Unicode Alphabetic restricted to the ASCII range: A-Z or a-z. -/
def isAsciiAlphabetic (c : Char) : Bool :=
  (0x41 ≤ c.toNat && c.toNat ≤ 0x5A) || (0x61 ≤ c.toNat && c.toNat ≤ 0x7A)

/-- Unicode alphanumeric restricted to the ASCII range: A-Z, a-z or 0-9. -/
def isAsciiAlphanumeric (c : Char) : Bool :=
  isAsciiAlphabetic c || (0x30 ≤ c.toNat && c.toNat ≤ 0x39)

/-- Rust util::is_alphanum_or_dash: is_ascii(c) && (c.is_alphanumeric() || c == '-'). -/
def is_alphanum_or_dash (c : Char) : Bool :=
  isAscii c && (isAsciiAlphanumeric c || c == '-')

/-- Rust util::is_first_char_alphabetic: the first char exists, is ASCII and
alphabetic; false on the empty string.  Strings are modelled as their list of
chars (Unicode scalar values, as Rust str::chars yields). -/
def is_first_char_alphabetic (s : List Char) : Bool :=
  match s with
  | [] => false
  | c :: _ => isAscii c && isAsciiAlphabetic c

/-- Number of bytes of the UTF-8 encoding of a char; Rust str::len counts bytes. -/
def utf8Size (c : Char) : Nat :=
  if c.toNat ≤ 0x7F then 1
  else if c.toNat ≤ 0x7FF then 2
  else if c.toNat ≤ 0xFFFF then 3
  else 4

/-- Rust str::len: the UTF-8 byte length of the string. -/
def byteLen (s : List Char) : Nat := (s.map utf8Size).sum

/-- Rust util::is_valid_name (libcitadel/src/util.rs):
name.len() <= maxsize && is_first_char_alphabetic(name) &&
name.chars().all(is_alphanum_or_dash). -/
def is_valid_name (name : List Char) (maxsize : Nat) : Bool :=
  decide (byteLen name ≤ maxsize) &&
    is_first_char_alphabetic name &&
    name.all is_alphanum_or_dash

/-- MAX_REALMFS_NAME_LEN in libcitadel/src/realmfs/realmfs.rs. -/
def MAX_REALMFS_NAME_LEN : Nat := 40

/-- Rust RealmFS::is_valid_name: util::is_valid_name(name, MAX_REALMFS_NAME_LEN). -/
def realmfsIsValidName (name : List Char) : Bool :=
  is_valid_name name MAX_REALMFS_NAME_LEN

/-- The acceptance predicate exactly as the specification states it: length
between 1 and 40, first character an ASCII alphabetic letter, every remaining
character ASCII alphanumeric or a dash. -/
def specValidName (s : List Char) : Prop :=
  1 ≤ s.length ∧ s.length ≤ 40 ∧
    is_first_char_alphabetic s = true ∧
    ∀ c ∈ s.tail, isAscii c = true ∧ (isAsciiAlphanumeric c = true ∨ c = '-')

/-! Constants of libcitadel/src/realmfs/resizer.rs. -/

/-- BLOCK_SIZE in resizer.rs. -/
def BLOCK_SIZE : Nat := 4096

/-- BLOCKS_PER_MEG in resizer.rs. -/
def BLOCKS_PER_MEG : Nat := (1024 * 1024) / BLOCK_SIZE

/-- BLOCKS_PER_GIG in resizer.rs. -/
def BLOCKS_PER_GIG : Nat := 1024 * BLOCKS_PER_MEG

/-- AUTO_RESIZE_MINIMUM_FREE in resizer.rs: 1 GiB worth of 4096-byte blocks. -/
def AUTO_RESIZE_MINIMUM_FREE : Nat := BLOCKS_PER_GIG

/-- AUTO_RESIZE_INCREASE_SIZE in resizer.rs: 4 GiB worth of 4096-byte blocks. -/
def AUTO_RESIZE_INCREASE_SIZE : Nat := 4 * BLOCKS_PER_GIG

/-- Bitwise complement on usize, as the Rust expression !mask on a 64-bit
platform: every one of the 64 bits is flipped. -/
def usizeNot (m : Nat) : Nat := (2 ^ 64 - 1) ^^^ m

/-- Rust ResizeSize::auto_resize_size, with the two reads from the image file
abstracted into arguments: free_blocks is the free-block count reported by the
ext4 superblock of the image, and nblocks is the metainfo nblocks field of the
image header.  The early return None on a superblock read failure is outside
this pure model.  The returned value is the nblocks payload of the
ResizeSize::blocks result. -/
def auto_resize_size (free_blocks nblocks : Nat) : Option Nat :=
  if free_blocks < AUTO_RESIZE_MINIMUM_FREE then
    let metainfo_nblocks := nblocks + 1
    let increase_multiple := metainfo_nblocks / AUTO_RESIZE_INCREASE_SIZE
    let grow_size := (increase_multiple + 1) * AUTO_RESIZE_INCREASE_SIZE
    let mask := grow_size - 1
    let grow_blocks := (free_blocks + mask) &&& usizeNot mask
    some grow_blocks
  else
    none

/-- The grow size the claim describes, written from the specification words:
the current image size (metainfo nblocks plus one header block) rounded up to
the next 4 GiB boundary, i.e. the least multiple of 4 GiB strictly above the
current size. -/
def specRecommendedGrow (nblocks : Nat) : Nat :=
  ((nblocks + 1) / AUTO_RESIZE_INCREASE_SIZE + 1) * AUTO_RESIZE_INCREASE_SIZE

/-! Update and resize of a RealmFS image (libcitadel/src/realmfs/update.rs). -/

/-- NUM_BACKUPS in update.rs: maximum number of backup copies rotate creates. -/
def NUM_BACKUPS : Nat := 2

/-- Rust ResizeSize::gigs(n).nblocks(): n GiB expressed in 4096-byte blocks. -/
def gigsBlocks (n : Nat) : Nat := BLOCKS_PER_GIG * n

/-- Rust Update::metainfo_nblock_size: metainfo nblocks plus the header block. -/
def metainfo_nblock_size (metainfo_nblocks : Nat) : Nat := metainfo_nblocks + 1

/-- Rust Update::grow_by: set_resize(metainfo_nblock_size + size.nblocks()).
The returned value is the resize field stored in the Update. -/
def grow_by (metainfo_nblocks sz : Nat) : Option Nat :=
  some (metainfo_nblock_size metainfo_nblocks + sz)

/-- Rust Update::grow_to: keep the existing resize field (initially None)
unless the target is strictly larger than the current size. -/
def grow_to (metainfo_nblocks : Nat) (resize : Option Nat) (sz : Nat) : Option Nat :=
  if metainfo_nblock_size metainfo_nblocks ≥ sz then resize else some sz

/-- Rust Update::resize_image_file: with no resize requested do nothing;
otherwise let nblocks = resize.nblocks() + 1, refuse to shrink, refuse an
increase beyond 8 GiB, and otherwise truncate the update copy to nblocks
blocks (the Ok payload is the new length in blocks, none when untouched). -/
def resize_image_file (metainfo_nblocks : Nat) (resize : Option Nat) :
    Except String (Option Nat) :=
  match resize with
  | none => .ok none
  | some rs =>
    let nblocks := rs + 1
    if nblocks < metainfo_nblock_size metainfo_nblocks then
      .error "Cannot shrink image"
    else if nblocks - metainfo_nblock_size metainfo_nblocks > gigsBlocks 8 then
      .error "Can only increase size of RealmFS image by a maximum of 8gb at one time"
    else
      .ok (some nblocks)

/-! Rotation of image backups at the end of an update (Update::rotate). -/

/-- Contents of the four file slots Update::rotate touches, inside the RealmFS
image directory: the current image name-realmfs.img, the backups
name-realmfs.img.0 and name-realmfs.img.1, and the name-realmfs.update copy.
A slot holds none when the file does not exist; contents are abstracted as
natural numbers. -/
structure RotateState where
  cur : Option Nat
  b0 : Option Nat
  b1 : Option Nat
  upd : Option Nat
deriving DecidableEq

/-- Rust Update::rotate.  The loop for i in (1..NUM_BACKUPS).rev() runs exactly
once, with i = 1: if name-realmfs.img.0 exists it is renamed onto
name-realmfs.img.1.  Then fs::rename(current, .img.0) and
fs::rename(update, current) are performed unconditionally; fs::rename fails
when its source does not exist, modelled by returning none. -/
def rotate (s : RotateState) : Option RotateState :=
  let s1 := if s.b0.isSome then { s with b1 := s.b0, b0 := none } else s
  match s1.cur with
  | none => none
  | some c =>
    let s2 := { s1 with b0 := some c, cur := none }
    match s2.upd with
    | none => none
    | some u => some { s2 with cur := some u, upd := none }

/-- Number of existing files among the current image and the two backups. -/
def imageCount (s : RotateState) : Nat :=
  (if s.cur.isSome then 1 else 0) + (if s.b0.isSome then 1 else 0) +
    (if s.b1.isSome then 1 else 0)

/-- Number of existing backup files. -/
def backupCount (s : RotateState) : Nat :=
  (if s.b0.isSome then 1 else 0) + (if s.b1.isSome then 1 else 0)

/-! File lock acquisition (libcitadel/src/system/lock.rs) and Update::create. -/

/-- Rust FileLock::nonblocking_acquire: flock(fd, LOCK_EX | LOCK_NB) succeeds
immediately when the lock is free and fails with EWOULDBLOCK when another
process holds it, in which case Ok(None) is returned without blocking or
queueing.  The argument states whether the lock file is already exclusively
held. -/
def nonblocking_acquire (alreadyHeld : Bool) : Option Unit :=
  if alreadyHeld then none else some ()

/-- Rust Update::create: acquire the image lock non-blockingly, turning a
contested lock into an immediate error; then require the user sealing keys.
Nothing else is done, in particular the image file is not touched: the model
is a pure function of the lock state and key availability. -/
def updateCreate (lockHeld hasSealingKeys : Bool) : Except String Unit :=
  match nonblocking_acquire lockHeld with
  | none => .error "Unable to obtain file lock to update realmfs image"
  | some _ =>
    if hasSealingKeys then .ok ()
    else .error "Cannot seal realmfs image, no sealing keys available"

/-! The installer backend pipeline
(citadel-tool/src/install/installer.rs and install_backend/dbus.rs). -/

/-- Progress events of the install pipeline, in the vocabulary of the Msg enum
and the DBus signal names of install_backend/dbus.rs, extended with the
DiskPartitioned event the specification mentions so that the claimed sequence
is expressible. -/
inductive Event where
  | DiskPartitioned
  | LuksSetup
  | LvmSetup
  | BootSetup
  | StorageCreated
  | RootfsInstalled
  | InstallCompleted
  | InstallFailed
deriving DecidableEq

/-- The installer methods invoked by DbusServer::run_install, in source order. -/
inductive Step where
  | verify
  | partitionDisk
  | setupLuks
  | setupLvm
  | setupBoot
  | createStorage
  | installRootfs
  | finishInstall
deriving DecidableEq

/-- EXTRA_IMAGE_NAME in installer.rs. -/
def EXTRA_IMAGE_NAME : String := "citadel-extra.img"

/-- Rust Installer::kernel_imagename. -/
def kernel_imagename (kernelVersion : String) : String :=
  "citadel-kernel-" ++ kernelVersion ++ ".img"

/-- The artifact list checked by Installer::verify, in source order. -/
def requiredArtifacts (kernelVersion : String) : List String :=
  ["bootx64.efi", "bzImage-" ++ kernelVersion,
    kernel_imagename kernelVersion, EXTRA_IMAGE_NAME]

/-- What Installer::verify observes: whether the target device node exists and
which files are present in the artifact directory. -/
structure Env where
  targetExists : Bool
  present : String → Bool
  kernelVersion : String

/-- Rust Installer::verify: fail if the target device does not exist, then
fail on the first required artifact missing from the artifact directory. -/
def verify (e : Env) : Except String Unit :=
  if !e.targetExists then
    .error "target device does not exist"
  else
    match (requiredArtifacts e.kernelVersion).find? (fun a => !e.present a) with
    | some a => .error ("required install artifact does not exist: " ++ a)
    | none => .ok ()

/-- Success or failure of each effectful installer step run by the backend,
abstracting the subprocess executions each performs. -/
structure StepOutcome where
  partitionOk : Bool
  luksOk : Bool
  lvmOk : Bool
  bootOk : Bool
  storageOk : Bool
  rootfsOk : Bool
  finishOk : Bool
deriving DecidableEq

/-- Result of one backend install run: the progress messages sent on the mpsc
channel in order, the installer steps that were invoked, and whether the whole
run returned Ok. -/
structure RunResult where
  events : List Event
  executed : List Step
  ok : Bool
deriving DecidableEq

/-- Rust DbusServer::run_install: verify, then the seven pipeline steps in
order, each aborting the run on failure via the question-mark operator; a
progress message is sent after each of setup_luks, setup_lvm, setup_boot,
create_storage and install_rootfs_partitions succeeds.  No message is sent
after partition_disk: the Msg enum has no DiskPartitioned variant. -/
def run_install (e : Env) (o : StepOutcome) : RunResult :=
  match verify e with
  | .error _ => ⟨[], [.verify], false⟩
  | .ok _ =>
    if !o.partitionOk then ⟨[], [.verify, .partitionDisk], false⟩
    else if !o.luksOk then ⟨[], [.verify, .partitionDisk, .setupLuks], false⟩
    else if !o.lvmOk then
      ⟨[.LuksSetup], [.verify, .partitionDisk, .setupLuks, .setupLvm], false⟩
    else if !o.bootOk then
      ⟨[.LuksSetup, .LvmSetup],
        [.verify, .partitionDisk, .setupLuks, .setupLvm, .setupBoot], false⟩
    else if !o.storageOk then
      ⟨[.LuksSetup, .LvmSetup, .BootSetup],
        [.verify, .partitionDisk, .setupLuks, .setupLvm, .setupBoot,
          .createStorage], false⟩
    else if !o.rootfsOk then
      ⟨[.LuksSetup, .LvmSetup, .BootSetup, .StorageCreated],
        [.verify, .partitionDisk, .setupLuks, .setupLvm, .setupBoot,
          .createStorage, .installRootfs], false⟩
    else if !o.finishOk then
      ⟨[.LuksSetup, .LvmSetup, .BootSetup, .StorageCreated, .RootfsInstalled],
        [.verify, .partitionDisk, .setupLuks, .setupLvm, .setupBoot,
          .createStorage, .installRootfs, .finishInstall], false⟩
    else
      ⟨[.LuksSetup, .LvmSetup, .BootSetup, .StorageCreated, .RootfsInstalled],
        [.verify, .partitionDisk, .setupLuks, .setupLvm, .setupBoot,
          .createStorage, .installRootfs, .finishInstall], true⟩

/-- The event stream a subscriber observes for one install: the RunInstall
handler in DbusServer::start forwards every channel message as a DBus signal
in order, then appends InstallCompleted on Ok and InstallFailed on Err. -/
def install_signals (e : Env) (o : StepOutcome) : List Event :=
  let r := run_install e o
  r.events ++ [if r.ok then .InstallCompleted else .InstallFailed]

/-- The event sequence the claim states for a successful install. -/
def claimedInstallSequence : List Event :=
  [.DiskPartitioned, .LuksSetup, .LvmSetup, .BootSetup, .StorageCreated,
    .RootfsInstalled, .InstallCompleted]

/-! Mountpoint activation (libcitadel/src/realmfs/mountpoint.rs). -/

/-- The file-system state Mountpoint::activate consults and changes: whether
the mountpoint directory contains etc (is_mounted), whether the mountpoint
directory itself exists, and whether the dm-verity device path
/dev/mapper/verity-realmfs-name-tag exists. -/
structure MountState where
  mounted : Bool
  dirExists : Bool
  verityDevExists : Bool
deriving DecidableEq

/-- The externally visible operations Mountpoint::activate and deactivate can
perform. -/
inductive MountAction where
  | createDir
  | setupVerity
  | mountDev
  | unmount
  | verityClose
  | removeDir
deriving DecidableEq

/-- Success or failure of the two fallible external operations of activate:
setup_verity (signature check, hashtree generation, veritysetup) and the
read-only mount command. -/
structure ActOutcome where
  setupVerityOk : Bool
  mountOk : Bool
deriving DecidableEq

/-- Resulting state, Ok flag and action trace of activate or deactivate. -/
structure ActivateResult where
  state : MountState
  ok : Bool
  actions : List MountAction
deriving DecidableEq

/-- Rust Mountpoint::deactivate: a no-op when the mountpoint directory does
not exist; otherwise unmount if mounted, close the dm-verity device if its
path exists, then remove the directory (failures are only logged). -/
def deactivateMp (s : MountState) : MountState × List MountAction :=
  if !s.dirExists then (s, [])
  else
    let a1 : List MountAction := if s.mounted then [.unmount] else []
    let a2 : List MountAction := if s.verityDevExists then [.verityClose] else []
    (⟨false, false, false⟩, a1 ++ a2 ++ [.removeDir])

/-- Rust Mountpoint::activate: return Ok immediately when already mounted;
otherwise create the mountpoint directory, then either adopt an existing
dm-verity device path (only a warning is logged) or set verity up, removing
the directory again on a setup failure; finally mount the device read-only,
calling deactivate on a mount failure. -/
def activateMp (s : MountState) (o : ActOutcome) : ActivateResult :=
  if s.mounted then ⟨s, true, []⟩
  else
    let s1 : MountState := { s with dirExists := true }
    if s1.verityDevExists then
      if o.mountOk then ⟨{ s1 with mounted := true }, true, [.createDir, .mountDev]⟩
      else
        let d := deactivateMp s1
        ⟨d.1, false, [.createDir, .mountDev] ++ d.2⟩
    else if o.setupVerityOk then
      let s2 : MountState := { s1 with verityDevExists := true }
      if o.mountOk then
        ⟨{ s2 with mounted := true }, true, [.createDir, .setupVerity, .mountDev]⟩
      else
        let d := deactivateMp s2
        ⟨d.1, false, [.createDir, .setupVerity, .mountDev] ++ d.2⟩
    else
      ⟨{ s1 with dirExists := false }, false, [.createDir, .setupVerity, .removeDir]⟩

/-! Mountpoint filename construction and parsing (mountpoint.rs).  Paths are
modelled by the file name, a list of chars; Path::file_name of the
constructed path is exactly that file name. -/

/-- Rust str::trim_end_matches(pat): repeatedly remove pat from the end while
it is a suffix.  The fuel argument of the worker bounds the number of
removals; the string length suffices since pat is nonempty at every use. -/
def trimEndGo (pat : List Char) : Nat → List Char → List Char
  | 0, s => s
  | fuel + 1, s =>
    if !pat.isEmpty && pat.isSuffixOf s then
      trimEndGo pat fuel (s.take (s.length - pat.length))
    else s

/-- Entry point of trim_end_matches. -/
def trimEndMatches (pat s : List Char) : List Char :=
  trimEndGo pat s.length s

/-- Rust str::trim_start_matches(pat): repeatedly remove pat from the start
while it is a prefix, with the same fuel bound. -/
def trimStartGo (pat : List Char) : Nat → List Char → List Char
  | 0, s => s
  | fuel + 1, s =>
    if !pat.isEmpty && pat.isPrefixOf s then
      trimStartGo pat fuel (s.drop pat.length)
    else s

/-- Entry point of trim_start_matches. -/
def trimStartMatches (pat s : List Char) : List Char :=
  trimStartGo pat s.length s

/-- Rust str::rfind(c): index of the last occurrence of the char, if any.
Indices are char positions, which coincide with Rust byte indices on the
ASCII strings involved. -/
def rfindChar (c : Char) : List Char → Option Nat
  | [] => none
  | x :: xs =>
    match rfindChar c xs with
    | some i => some (i + 1)
    | none => if x == c then some 0 else none

/-- Rust Mountpoint::parse_filename: strip the .mountpoint extension and the
realmfs- prefix with the repeated trim functions, find the last dash, and
split there; the name is the part before the dash, the tag the part after. -/
def parse_filename (fname : List Char) : Option (List Char × List Char) :=
  let t := trimStartMatches "realmfs-".toList (trimEndMatches ".mountpoint".toList fname)
  match rfindChar '-' t with
  | none => none
  | some idx => some (t.take idx, t.drop (idx + 1))

/-- Rust Mountpoint::new(name, tag): the file name of the constructed path,
realmfs-name-tag.mountpoint. -/
def mountpointFilename (name tag : List Char) : List Char :=
  "realmfs-".toList ++ name ++ '-' :: tag ++ ".mountpoint".toList

/-! Metainfo generation for fork (realmfs.rs) and the metainfo parser of the
image header module. -/

/-- A metainfo value: the Rust generate_metainfo writes realmfs names, the
channel and the verity fields as quoted TOML strings and nblocks as a bare
TOML integer. -/
inductive TomlValue where
  | str (s : String)
  | int (n : Nat)
deriving DecidableEq

/-- The metainfo fields of a RealmFS image header, as the specification lists
them: image-type, optional realmfs-name, nblocks, channel, verity-salt,
verity-root. -/
structure MetaInfo where
  imageType : String
  realmfsName : Option String
  nblocks : Nat
  channel : String
  veritySalt : String
  verityRoot : String
deriving DecidableEq

/-- RealmFS::USER_KEYNAME in realmfs.rs. -/
def USER_KEYNAME : String := "realmfs-user"

/-- Rust RealmFS::generate_metainfo: the key-value lines written, in order.
image-type is always the literal realmfs and channel is always USER_KEYNAME. -/
def generate_metainfo (name : String) (nblocks : Nat) (veritySalt verityRoot : String) :
    List (String × TomlValue) :=
  [("image-type", .str "realmfs"),
    ("realmfs-name", .str name),
    ("nblocks", .int nblocks),
    ("channel", .str USER_KEYNAME),
    ("verity-salt", .str veritySalt),
    ("verity-root", .str verityRoot)]

/-- Rust RealmFS::fork_metainfo: generate_metainfo from the new name and the
nblocks, verity-salt and verity-root fields of the source metainfo. -/
def fork_metainfo (source : MetaInfo) (newName : String) : List (String × TomlValue) :=
  generate_metainfo newName source.nblocks source.veritySalt source.verityRoot

/-- Look a string-valued key up in a metainfo key-value list. -/
def lookupStr (kvs : List (String × TomlValue)) (k : String) : Option String :=
  match kvs.lookup k with
  | some (.str s) => some s
  | _ => none

/-- Look an integer-valued key up in a metainfo key-value list. -/
def lookupInt (kvs : List (String × TomlValue)) (k : String) : Option Nat :=
  match kvs.lookup k with
  | some (.int n) => some n
  | _ => none

/-- Modelled from the spec: the metainfo parser of the ImageHeader module,
whose source is not part of this tree.  Per the specification the metainfo is
a TOML-like key-value map with the listed fields, and parsing the bytes that
generate_metainfo writes recovers the identical key-value map; we therefore
model the parse as field lookups in that map, with realmfs-name optional and
all other fields required. -/
def parseMetaInfo (kvs : List (String × TomlValue)) : Option MetaInfo :=
  match lookupStr kvs "image-type", lookupInt kvs "nblocks",
      lookupStr kvs "channel", lookupStr kvs "verity-salt",
      lookupStr kvs "verity-root" with
  | some it, some nb, some ch, some vs, some vr =>
    some ⟨it, lookupStr kvs "realmfs-name", nb, ch, vs, vr⟩
  | _, _, _, _, _ => none

/-- Rust RealmFS::fork control flow up to the header rewrite: validate the new
name, fail if the target image file already exists, fail without sealing
keys, and otherwise produce the metainfo key-value list that is signed and
installed into the copied image.  Error strings are abridged. -/
def fork (source : MetaInfo) (newName : String) (targetExists hasSealingKeys : Bool) :
    Except String (List (String × TomlValue)) :=
  if !realmfsIsValidName newName.toList then .error "Invalid realm name"
  else if targetExists then .error "RealmFS image for name already exists"
  else if !hasSealingKeys then
    .error "Cannot fork realmfs image, no signing keys available"
  else .ok (fork_metainfo source newName)

/-! Helper lemmas. -/

theorem utf8Size_of_ascii {c : Char} (h : isAscii c = true) : utf8Size c = 1 := by
  simp only [isAscii, decide_eq_true_eq] at h
  simp [utf8Size, h]

theorem byteLen_of_ascii {s : List Char} (h : ∀ c ∈ s, isAscii c = true) :
    byteLen s = s.length := by
  induction s with
  | nil => rfl
  | cons c cs ih =>
    have hc : utf8Size c = 1 := utf8Size_of_ascii (h c (List.mem_cons_self c cs))
    have : byteLen cs = cs.length := ih fun d hd => h d (List.mem_cons_of_mem c hd)
    simp [byteLen, List.map_cons, hc] at this ⊢
    omega

theorem ascii_of_alphanum_or_dash {c : Char} (h : is_alphanum_or_dash c = true) :
    isAscii c = true := by
  rw [is_alphanum_or_dash, Bool.and_eq_true] at h
  exact h.1

/-- C2: the RealmFS name validator accepts a string exactly when its length is
between 1 and 40, its first character is an ASCII alphabetic letter, and every
remaining character is ASCII alphanumeric or a dash. -/
theorem realmfs_name_validation_iff_spec (s : List Char) :
    realmfsIsValidName s = true ↔ specValidName s := by
  rw [realmfsIsValidName, is_valid_name, MAX_REALMFS_NAME_LEN, specValidName]
  constructor
  · intro h
    rw [Bool.and_eq_true, Bool.and_eq_true] at h
    obtain ⟨⟨hlen, hfirst⟩, hall⟩ := h
    rw [List.all_eq_true] at hall
    have hascii : ∀ c ∈ s, isAscii c = true := fun c hc =>
      ascii_of_alphanum_or_dash (hall c hc)
    have hne : s ≠ [] := by
      intro he
      rw [he] at hfirst
      simp [is_first_char_alphabetic] at hfirst
    have hlen' : byteLen s ≤ 40 := of_decide_eq_true hlen
    rw [byteLen_of_ascii hascii] at hlen'
    refine ⟨?_, hlen', hfirst, ?_⟩
    · have := List.length_pos.mpr hne
      omega
    · intro c hc
      have hc' : c ∈ s := List.mem_of_mem_tail hc
      have := hall c hc'
      rw [is_alphanum_or_dash, Bool.and_eq_true, Bool.or_eq_true] at this
      refine ⟨this.1, ?_⟩
      rcases this.2 with h1 | h1
      · exact Or.inl h1
      · exact Or.inr (by simpa using h1)
  · rintro ⟨h1, h2, hfirst, htail⟩
    match s, hfirst with
    | c :: rest, hfirst =>
      rw [is_first_char_alphabetic, Bool.and_eq_true] at hfirst
      have hallb : ∀ d ∈ c :: rest, is_alphanum_or_dash d = true := by
        intro d hd
        rcases List.mem_cons.mp hd with rfl | hd
        · rw [is_alphanum_or_dash, Bool.and_eq_true, Bool.or_eq_true]
          exact ⟨hfirst.1, Or.inl (by rw [isAsciiAlphanumeric, Bool.or_eq_true]; exact Or.inl hfirst.2)⟩
        · obtain ⟨ha, hb⟩ := htail d hd
          rw [is_alphanum_or_dash, Bool.and_eq_true, Bool.or_eq_true]
          refine ⟨ha, ?_⟩
          rcases hb with hb | hb
          · exact Or.inl hb
          · exact Or.inr (by simp [hb])
      have hascii : ∀ d ∈ c :: rest, isAscii d = true := fun d hd =>
        ascii_of_alphanum_or_dash (hallb d hd)
      rw [Bool.and_eq_true, Bool.and_eq_true]
      refine ⟨⟨?_, ?_⟩, ?_⟩
      · exact decide_eq_true (by rw [byteLen_of_ascii hascii]; exact h2)
      · rw [is_first_char_alphabetic, Bool.and_eq_true]; exact hfirst
      · rw [List.all_eq_true]; exact hallb

/-- C2 witness: the validator accepts the concrete name main, so the spec
predicate holds of it. -/
theorem realmfs_name_validation_iff_spec_witness : specValidName "main".toList :=
  (realmfs_name_validation_iff_spec "main".toList).mp (by decide)

/-- C5: a successful rotate moves the previous current image to the .img.0
slot, moves any pre-existing .img.0 backup to .img.1, installs the update copy
as the current image, retains at most NUM_BACKUPS backup files, and the number
of existing files among the current image and the two backups does not
decrease. -/
theorem rotate_preserves_images (s s' : RotateState) (h : rotate s = some s') :
    s'.b0 = s.cur ∧
    (s.b0.isSome = true → s'.b1 = s.b0) ∧
    (s.b0 = none → s'.b1 = s.b1) ∧
    s'.cur = s.upd ∧
    backupCount s' ≤ NUM_BACKUPS ∧
    imageCount s ≤ imageCount s' := by
  obtain ⟨cur, b0, b1, upd⟩ := s
  cases b0 <;> cases cur <;> cases upd <;> cases b1 <;>
    simp_all [rotate, imageCount, backupCount, NUM_BACKUPS] <;>
    (subst h; simp [imageCount, backupCount, NUM_BACKUPS])

/-- C5 witness: rotation of a state where the current image, both backups and
the update copy all exist. -/
theorem rotate_preserves_images_witness :
    rotate ⟨some 10, some 20, some 30, some 40⟩ = some ⟨some 40, some 10, some 20, none⟩ ∧
    imageCount ⟨some 10, some 20, some 30, some 40⟩ ≤
      imageCount ⟨some 40, some 10, some 20, none⟩ :=
  ⟨by decide,
    (rotate_preserves_images ⟨some 10, some 20, some 30, some 40⟩
      ⟨some 40, some 10, some 20, none⟩ (by decide)).2.2.2.2.2⟩

/-- C6: while the per-image lock file is already exclusively held, every
Update::create fails at once with the unable-to-obtain-file-lock error,
whatever the key availability, and performs nothing else; the non-blocking
acquisition never queues, and with the lock free it succeeds (and create
succeeds given sealing keys). -/
theorem update_create_lock_contention :
    (∀ hasKeys : Bool,
      updateCreate true hasKeys =
        .error "Unable to obtain file lock to update realmfs image") ∧
    nonblocking_acquire true = none ∧
    nonblocking_acquire false = some () ∧
    updateCreate false true = .ok () :=
  ⟨fun _ => rfl, rfl, rfl, rfl⟩

theorem resize_image_file_eq (m rs : Nat) :
    resize_image_file m (some rs) =
      if rs + 1 < metainfo_nblock_size m then .error "Cannot shrink image"
      else if rs + 1 - metainfo_nblock_size m > gigsBlocks 8 then
        .error "Can only increase size of RealmFS image by a maximum of 8gb at one time"
      else .ok (some (rs + 1)) := rfl

/-- C7 (amended): adjusting the update copy succeeds exactly when the request
neither shrinks the image nor exceeds the current size by more than 8 GiB,
where the effective new length is the requested block count plus one; because
grow_by already counts the header block, a grow_by request of exactly 8 GiB
has an effective increase of 8 GiB plus one block and is rejected, while any
grow_by request strictly below 8 GiB is accepted. -/
theorem resize_image_file_bounds (m rs sz : Nat) :
    (resize_image_file m (some rs) = .ok (some (rs + 1)) ↔
      m ≤ rs ∧ rs - m ≤ gigsBlocks 8) ∧
    (resize_image_file m (grow_by m sz) = .ok (some (m + sz + 2)) ↔
      sz < gigsBlocks 8) := by
  constructor
  · rw [resize_image_file_eq]
    split_ifs with h1 h2
    · simp only [metainfo_nblock_size] at h1
      constructor
      · intro h; exact absurd h (by simp)
      · intro h; omega
    · simp only [metainfo_nblock_size] at h1 h2
      constructor
      · intro h; exact absurd h (by simp)
      · intro h; omega
    · simp only [metainfo_nblock_size] at h1 h2
      constructor
      · intro _; omega
      · intro _; rfl
  · rw [grow_by, resize_image_file_eq]
    split_ifs with h1 h2
    · simp only [metainfo_nblock_size] at h1
      omega
    · simp only [metainfo_nblock_size] at h1 h2
      constructor
      · intro h; exact absurd h (by simp)
      · intro h; omega
    · simp only [metainfo_nblock_size] at h1 h2
      constructor
      · intro _; omega
      · intro _
        have : metainfo_nblock_size m + sz + 1 = m + sz + 2 := by
          simp [metainfo_nblock_size]; omega
        rw [this]

/-- C7 witness: a request that keeps the current size is accepted. -/
theorem resize_image_file_bounds_witness :
    resize_image_file 1000 (some 1000) = .ok (some 1001) :=
  (resize_image_file_bounds 1000 1000 0).1.mpr (by decide)

/-- C7 counterexample: with metainfo nblocks 1000, a grow_by request of
exactly 8 GiB is rejected by resize_image_file with the 8 GiB cap error,
contradicting the claim that exactly 8 GiB is within the cap. -/
theorem grow_by_eight_gig_rejected :
    resize_image_file 1000 (grow_by 1000 (gigsBlocks 8)) =
      .error "Can only increase size of RealmFS image by a maximum of 8gb at one time" := rfl

/-- C1 (amended): every successful backend install delivers exactly the events
LuksSetup, LvmSetup, BootSetup, StorageCreated, RootfsInstalled and then
InstallCompleted, in that order with no gaps; no DiskPartitioned event is ever
delivered, because the backend sends no message after partition_disk. -/
theorem install_success_event_sequence (e : Env) (o : StepOutcome)
    (h : (run_install e o).ok = true) :
    install_signals e o =
      [.LuksSetup, .LvmSetup, .BootSetup, .StorageCreated, .RootfsInstalled,
        .InstallCompleted] ∧
    Event.DiskPartitioned ∉ install_signals e o := by
  obtain ⟨p, l, v, b, st, r, f⟩ := o
  cases hv : verify e <;>
    cases p <;> cases l <;> cases v <;> cases b <;> cases st <;> cases r <;> cases f <;>
      simp_all [run_install, install_signals]

/-- C1 witness: the successful run with every step succeeding delivers the
six-event sequence. -/
theorem install_success_event_sequence_witness :
    install_signals ⟨true, fun _ => true, "5.4"⟩ ⟨true, true, true, true, true, true, true⟩ =
      [.LuksSetup, .LvmSetup, .BootSetup, .StorageCreated, .RootfsInstalled,
        .InstallCompleted] :=
  (install_success_event_sequence ⟨true, fun _ => true, "5.4"⟩
    ⟨true, true, true, true, true, true, true⟩ rfl).1

/-- C1 counterexample: a fully successful install delivers six events and the
delivered sequence differs from the seven-event sequence the claim states,
since DiskPartitioned is missing. -/
theorem install_events_missing_disk_partitioned :
    install_signals ⟨true, fun _ => true, "5.4"⟩ ⟨true, true, true, true, true, true, true⟩ =
      [.LuksSetup, .LvmSetup, .BootSetup, .StorageCreated, .RootfsInstalled,
        .InstallCompleted] ∧
    install_signals ⟨true, fun _ => true, "5.4"⟩ ⟨true, true, true, true, true, true, true⟩ ≠
      claimedInstallSequence ∧
    Event.DiskPartitioned ∈ claimedInstallSequence := by
  refine ⟨rfl, ?_, by decide⟩
  intro h
  exact absurd (rfl.trans h) (by decide)

/-- C8: when the target device does not exist or the bootx64.efi artifact is
missing, Installer::verify fails, and the backend pipeline run fails having
invoked verify only: no progress event is emitted and no step that mutates the
target disk is executed, leaving the disk unchanged. -/
theorem verify_failure_prevents_mutation (e : Env) (o : StepOutcome)
    (h : e.targetExists = false ∨ e.present "bootx64.efi" = false) :
    (∃ msg, verify e = .error msg) ∧
    run_install e o = ⟨[], [.verify], false⟩ ∧
    Step.partitionDisk ∉ (run_install e o).executed := by
  have hv : ∃ msg, verify e = .error msg := by
    rcases h with h | h
    · exact ⟨"target device does not exist", by simp [verify, h]⟩
    · cases ht : e.targetExists
      · exact ⟨"target device does not exist", by simp [verify, ht]⟩
      · refine ⟨"required install artifact does not exist: " ++ "bootx64.efi", ?_⟩
        have hfind : (requiredArtifacts e.kernelVersion).find? (fun a => !e.present a) =
            some "bootx64.efi" := by
          rw [requiredArtifacts]
          exact List.find?_cons_of_pos _ (by simp [h])
        simp [verify, ht, hfind]
  obtain ⟨msg, hm⟩ := hv
  refine ⟨⟨msg, hm⟩, ?_, ?_⟩
  · simp [run_install, hm]
  · simp [run_install, hm]

/-- C8 witness: a concrete environment whose artifact directory lacks
bootx64.efi produces a run that invokes verify only. -/
theorem verify_failure_prevents_mutation_witness :
    run_install ⟨true, fun a => !(a == "bootx64.efi"), "5.4"⟩
      ⟨true, true, true, true, true, true, true⟩ = ⟨[], [.verify], false⟩ :=
  (verify_failure_prevents_mutation ⟨true, fun a => !(a == "bootx64.efi"), "5.4"⟩
    ⟨true, true, true, true, true, true, true⟩ (Or.inr rfl)).2.1

/-- C4 (amended): whenever fork succeeds, the metainfo installed into the
forked image parses to a record whose realmfs-name is the new name and whose
image-type, nblocks, verity-salt and verity-root equal the source fields,
while the channel field is always rewritten to the user channel realmfs-user
regardless of the channel of the source image. -/
theorem fork_metainfo_preserves_fields (source : MetaInfo) (newName : String)
    (te hk : Bool) (kvs : List (String × TomlValue))
    (hsrc : source.imageType = "realmfs")
    (h : fork source newName te hk = .ok kvs) :
    parseMetaInfo kvs =
      some ⟨source.imageType, some newName, source.nblocks, USER_KEYNAME,
        source.veritySalt, source.verityRoot⟩ := by
  rw [fork] at h
  by_cases h1 : (!realmfsIsValidName newName.toList) = true
  · rw [if_pos h1] at h
    exact absurd h (by simp)
  · rw [if_neg h1] at h
    by_cases h2 : te = true
    · rw [if_pos h2] at h
      exact absurd h (by simp)
    · rw [if_neg h2] at h
      by_cases h3 : (!hk) = true
      · rw [if_pos h3] at h
        exact absurd h (by simp)
      · rw [if_neg h3] at h
        rw [Except.ok.injEq] at h
        subst h
        rw [hsrc]
        rfl

/-- C4 witness: forking a concrete source image of channel dev to the name
copy yields metainfo with the new name, the user channel, and all other
fields preserved. -/
theorem fork_metainfo_preserves_fields_witness :
    parseMetaInfo (fork_metainfo ⟨"realmfs", some "base", 7, "dev", "s0", "r0"⟩ "copy") =
      some ⟨"realmfs", some "copy", 7, USER_KEYNAME, "s0", "r0"⟩ :=
  fork_metainfo_preserves_fields ⟨"realmfs", some "base", 7, "dev", "s0", "r0"⟩
    "copy" false true _ rfl rfl

/-- C4 counterexample: fork of a source whose channel is dev produces metainfo
whose channel parses to realmfs-user, not dev, so not every metainfo field
other than the name is preserved. -/
theorem fork_channel_rewrite_counterexample :
    (parseMetaInfo (fork_metainfo ⟨"realmfs", some "base", 1000, "dev", "abcd", "ef01"⟩
        "forked")).map MetaInfo.channel = some USER_KEYNAME ∧
    USER_KEYNAME ≠ "dev" :=
  ⟨rfl, by decide⟩

/-- C9: mountpoint activation is idempotent: an already mounted mountpoint
makes activate return Ok at once with no action performed, a second activate
after any successful activate changes nothing and performs no action, and when
the dm-verity device path already exists activate adopts it, never running
verity setup. -/
theorem activate_idempotent_adopt (s s' : MountState) (o o' : ActOutcome)
    (acts : List MountAction) :
    (s.mounted = true → activateMp s o = ⟨s, true, []⟩) ∧
    (activateMp s o = ⟨s', true, acts⟩ → activateMp s' o' = ⟨s', true, []⟩) ∧
    (s.verityDevExists = true → MountAction.setupVerity ∉ (activateMp s o).actions) := by
  obtain ⟨m, d, v⟩ := s
  obtain ⟨m', d', v'⟩ := s'
  obtain ⟨sv, mk⟩ := o
  refine ⟨fun h1 => ?_, fun h2 => ?_, fun h3 => ?_⟩
  · simp only at h1
    subst h1
    simp [activateMp]
  · cases m <;> cases v <;> cases sv <;> cases mk <;>
      simp_all [activateMp, deactivateMp]
  · simp only at h3
    subst h3
    cases m <;> cases mk <;> simp [activateMp, deactivateMp]

/-- C9 witness: a fresh activation that succeeds, followed by a second
activate, which changes nothing and performs no action. -/
theorem activate_idempotent_adopt_witness :
    activateMp ⟨true, true, true⟩ ⟨true, true⟩ = ⟨⟨true, true, true⟩, true, []⟩ :=
  (activate_idempotent_adopt ⟨false, false, false⟩ ⟨true, true, true⟩ ⟨true, true⟩
    ⟨true, true⟩ [.createDir, .setupVerity, .mountDev]).2.1 (by decide)

theorem land_two_pow_add_usizeNot {j r : Nat} (hj : j < 64) (hr : r < 2 ^ j) :
    (2 ^ j + r) &&& usizeNot (2 ^ j - 1) = 2 ^ j := by
  apply Nat.eq_of_testBit_eq
  intro i
  rw [Nat.testBit_land, usizeNot, Nat.testBit_xor, Nat.testBit_two_pow_sub_one,
    Nat.testBit_two_pow_sub_one, Nat.testBit_two_pow]
  rcases Nat.lt_trichotomy i j with hij | hij | hij
  · have h64 : i < 64 := lt_trans hij hj
    rw [decide_eq_true h64, decide_eq_true hij]
    rw [decide_eq_false (Nat.ne_of_gt hij)]
    simp
  · subst hij
    rw [decide_eq_true hj, decide_eq_false (lt_irrefl i), decide_eq_true rfl]
    have hbit : Nat.testBit (2 ^ i + r) i = true := by
      rw [Nat.testBit_two_pow_add_eq, Nat.testBit_lt_two_pow hr]
      rfl
    rw [hbit]
    rfl
  · have hbit : Nat.testBit (2 ^ j + r) i = false := by
      apply Nat.testBit_lt_two_pow
      calc 2 ^ j + r < 2 ^ j + 2 ^ j := by omega
        _ = 2 ^ (j + 1) := by rw [Nat.pow_succ]; omega
        _ ≤ 2 ^ i := Nat.pow_le_pow_right (by norm_num) hij
    rw [hbit, decide_eq_false (Nat.ne_of_lt hij)]
    rfl

/-- C3 (amended): with at least 1 GiB of free blocks the auto-resize policy
recommends nothing.  With under 1 GiB free, a positive free-block count, and a
current image size whose round-up to the next 4 GiB boundary happens to be a
power-of-two number of blocks below 2 to the 64, the recommendation equals
that rounded-up size; for other image sizes the bit-mask arithmetic of the
code does not compute the rounded-up size (see the counterexample). -/
theorem auto_resize_size_characterization (free nblocks j : Nat) :
    (AUTO_RESIZE_MINIMUM_FREE ≤ free → auto_resize_size free nblocks = none) ∧
    (free < AUTO_RESIZE_MINIMUM_FREE → 0 < free → j < 64 →
      specRecommendedGrow nblocks = 2 ^ j →
      auto_resize_size free nblocks = some (specRecommendedGrow nblocks)) := by
  constructor
  · intro h
    rw [auto_resize_size, if_neg (by omega)]
  · intro h1 h2 h3 h4
    have hcode : auto_resize_size free nblocks =
        some ((free + (specRecommendedGrow nblocks - 1)) &&&
          usizeNot (specRecommendedGrow nblocks - 1)) := by
      rw [auto_resize_size, if_pos h1]
      rfl
    have hAle : AUTO_RESIZE_INCREASE_SIZE ≤ specRecommendedGrow nblocks := by
      rw [specRecommendedGrow]
      calc AUTO_RESIZE_INCREASE_SIZE = 1 * AUTO_RESIZE_INCREASE_SIZE := (one_mul _).symm
        _ ≤ ((nblocks + 1) / AUTO_RESIZE_INCREASE_SIZE + 1) * AUTO_RESIZE_INCREASE_SIZE :=
          Nat.mul_le_mul_right _ (Nat.le_add_left 1 _)
    have hminEq : AUTO_RESIZE_MINIMUM_FREE = 262144 := rfl
    have hAEq : AUTO_RESIZE_INCREASE_SIZE = 1048576 := rfl
    have h5 : (1048576 : Nat) ≤ 2 ^ j := by
      calc (1048576 : Nat) = AUTO_RESIZE_INCREASE_SIZE := hAEq.symm
        _ ≤ specRecommendedGrow nblocks := hAle
        _ = 2 ^ j := h4
    have hfree : free < 262144 := hminEq ▸ h1
    have hr : free - 1 < 2 ^ j := by omega
    have hpos : 0 < 2 ^ j := Nat.two_pow_pos j
    have hsum : free + (2 ^ j - 1) = 2 ^ j + (free - 1) := by omega
    rw [hcode, h4, hsum, land_two_pow_add_usizeNot h3 hr]

/-- C3 witness: an image of metainfo nblocks 1000 with 100 free blocks gets
the recommendation of its size rounded up to 4 GiB, here 1048576 blocks. -/
theorem auto_resize_size_characterization_witness :
    auto_resize_size 100 1000 = some (specRecommendedGrow 1000) :=
  (auto_resize_size_characterization 100 1000 20).2 (by decide) (by decide)
    (by decide) (by decide)

/-- C3 counterexample: for an image of metainfo nblocks 2097162 (just above
8 GiB) with 100 free blocks, the code recommends 1048576 blocks (4 GiB),
whereas the claim says the recommendation is the image size rounded up to the
next 4 GiB boundary, 3145728 blocks (12 GiB). -/
theorem auto_resize_not_rounded_counterexample :
    auto_resize_size 100 2097162 = some 1048576 ∧
    specRecommendedGrow 2097162 = 3145728 ∧
    (1048576 : Nat) ≠ 3145728 :=
  ⟨by decide, by decide, by decide⟩

theorem trimEndGo_of_not_suffix {pat s : List Char} (h : pat.isSuffixOf s = false)
    (fuel : Nat) : trimEndGo pat fuel s = s := by
  cases fuel <;> simp [trimEndGo, h]

theorem trimEndGo_append {pat A : List Char} (hne : pat.isEmpty = false)
    (h : pat.isSuffixOf A = false) (fuel : Nat) :
    trimEndGo pat (fuel + 1) (A ++ pat) = A := by
  have hsuf : pat.isSuffixOf (A ++ pat) = true := by
    rw [ List.isSuffixOf_iff_suffix]
    exact List.suffix_append A pat
  have htake : (A ++ pat).take ((A ++ pat).length - pat.length) = A := by
    rw [List.length_append, Nat.add_sub_cancel]
    exact List.take_left A pat
  rw [trimEndGo, hne, hsuf]
  simp only [Bool.not_false, Bool.and_true, if_true]
  rw [htake]
  exact trimEndGo_of_not_suffix h fuel

theorem trimEndMatches_append {pat A : List Char} (hne : pat.isEmpty = false)
    (h : pat.isSuffixOf A = false) : trimEndMatches pat (A ++ pat) = A := by
  have hlen : (A ++ pat).length = (A.length + (pat.length - 1)) + 1 := by
    rw [List.length_append]
    have : 0 < pat.length := by
      cases pat
      · simp [List.isEmpty] at hne
      · simp
    omega
  rw [trimEndMatches, hlen]
  exact trimEndGo_append hne h _

theorem trimStartGo_of_not_prefix {pat s : List Char} (h : pat.isPrefixOf s = false)
    (fuel : Nat) : trimStartGo pat fuel s = s := by
  cases fuel <;> simp [trimStartGo, h]

theorem trimStartGo_append {pat B : List Char} (hne : pat.isEmpty = false)
    (h : pat.isPrefixOf B = false) (fuel : Nat) :
    trimStartGo pat (fuel + 1) (pat ++ B) = B := by
  have hpre : pat.isPrefixOf (pat ++ B) = true := by
    rw [ List.isPrefixOf_iff_prefix]
    exact List.prefix_append pat B
  rw [trimStartGo, hne, hpre]
  simp only [Bool.not_false, Bool.and_true, if_true]
  rw [List.drop_left]
  exact trimStartGo_of_not_prefix h fuel

theorem trimStartMatches_append {pat B : List Char} (hne : pat.isEmpty = false)
    (h : pat.isPrefixOf B = false) : trimStartMatches pat (pat ++ B) = B := by
  have hlen : (pat ++ B).length = (pat.length - 1 + B.length) + 1 := by
    rw [List.length_append]
    have : 0 < pat.length := by
      cases pat
      · simp [List.isEmpty] at hne
      · simp
    omega
  rw [trimStartMatches, hlen]
  exact trimStartGo_append hne h _

theorem rfindChar_eq_none {c : Char} {s : List Char}
    (h : ∀ x ∈ s, (x == c) = false) : rfindChar c s = none := by
  induction s with
  | nil => rfl
  | cons x xs ih =>
    rw [rfindChar, ih fun y hy => h y (List.mem_cons_of_mem x hy)]
    rw [h x (List.mem_cons_self x xs)]
    rfl

theorem rfindChar_sep (name tag : List Char)
    (h : ∀ x ∈ tag, (x == '-') = false) :
    rfindChar '-' (name ++ '-' :: tag) = some name.length := by
  induction name with
  | nil =>
    rw [List.nil_append, rfindChar, rfindChar_eq_none h]
    rfl
  | cons x xs ih =>
    rw [List.cons_append, rfindChar, ih]
    rfl

/-- C10 (amended): constructing a mountpoint filename from a name and a tag
and parsing it back is the identity, provided the tag contains no dash, the
string realmfs- is not a prefix of name-tag (in particular the name does not
itself start with realmfs-), and .mountpoint is not a suffix of
realmfs-name-tag; without the extra two conditions the repeated trimming of
parse_filename can strip parts of the name or tag (see the counterexample). -/
theorem mountpoint_roundtrip (name tag : List Char)
    (h1 : ("realmfs-".toList).isPrefixOf (name ++ '-' :: tag) = false)
    (h2 : (".mountpoint".toList).isSuffixOf ("realmfs-".toList ++ name ++ '-' :: tag) = false)
    (h3 : ∀ x ∈ tag, (x == '-') = false) :
    parse_filename (mountpointFilename name tag) = some (name, tag) := by
  rw [parse_filename, mountpointFilename]
  have e1 : trimEndMatches ".mountpoint".toList
      ("realmfs-".toList ++ name ++ '-' :: tag ++ ".mountpoint".toList) =
      "realmfs-".toList ++ name ++ '-' :: tag := by
    have h := @trimEndMatches_append ".mountpoint".toList
      ("realmfs-".toList ++ name ++ '-' :: tag) (by decide) h2
    exact h
  rw [e1]
  have e2 : trimStartMatches "realmfs-".toList
      ("realmfs-".toList ++ name ++ '-' :: tag) = name ++ '-' :: tag := by
    have h := @trimStartMatches_append "realmfs-".toList
      (name ++ '-' :: tag) (by decide) h1
    simpa [List.append_assoc] using h
  rw [e2, rfindChar_sep name tag h3]
  have e3 : (name ++ '-' :: tag).take name.length = name := List.take_left name _
  have e4 : (name ++ '-' :: tag).drop (name.length + 1) = tag := by
    rw [show name ++ '-' :: tag = (name ++ ['-']) ++ tag by simp]
    exact List.drop_left' (by simp)
  simp only [e3, e4]

/-- C10 witness: the round trip at the concrete name main and a 16-character
hexadecimal tag. -/
theorem mountpoint_roundtrip_witness :
    parse_filename (mountpointFilename "main".toList "0123456789abcdef".toList) =
      some ("main".toList, "0123456789abcdef".toList) :=
  mountpoint_roundtrip "main".toList "0123456789abcdef".toList (by decide) (by decide)
    (by decide)

/-- C10 counterexample: realmfs-x is a valid RealmFS name and the tag is a
dash-free 16-character hexadecimal string, yet parsing the constructed
mountpoint filename yields the name x rather than realmfs-x, because
trim_start_matches strips the leading realmfs- repeatedly; so the
construct-then-parse round trip is not the identity for every dashed name. -/
theorem parse_filename_realmfs_prefix_counterexample :
    parse_filename (mountpointFilename "realmfs-x".toList "0123456789abcdef".toList) =
      some ("x".toList, "0123456789abcdef".toList) ∧
    "x".toList ≠ "realmfs-x".toList ∧
    realmfsIsValidName "realmfs-x".toList = true ∧
    (∀ x ∈ "0123456789abcdef".toList, (x == '-') = false) :=
  ⟨by decide, by decide, by decide, by decide⟩

end Citadel
